import Mathlib

/-!
Verification of the scatter/gather iovec copy core (core.c) and the
buffer/time helpers (sample.c), via a shallow embedding in Lean.
`size_t` is modelled as `Nat` reduced modulo `2 ^ 64`; the C `int`
temporary in the advance loop is modelled by an explicit truncating
conversion.  Fallible or potentially non-terminating loops take a fuel
argument and return `Option`; an out-of-bounds segment-array read is a
distinct terminal outcome (`oob`), since it is undefined behavior in C.
-/

/-- Modulus of the 64-bit `size_t` / `uint64_t` type. -/
def SIZE_MOD : Nat := 2 ^ 64

/-- Value of the C conversion `(int) n` where `n` is a `size_t` value:
take the low 32 bits, two's complement. -/
def toIntC (n : Nat) : Int :=
  let m : Nat := n % 2 ^ 32
  if m < 2 ^ 31 then (m : Int) else (m : Int) - 2 ^ 32

/-- Value of the C conversion back from `int` to `size_t`. -/
def toSizeT (i : Int) : Nat := (i % ((2 ^ 64 : Nat) : Int)).toNat

/-- `struct iovec` from core.c: a segment with a byte length and the bytes
backing the region behind `iov_base`; `nonNull` records `iov_base != NULL`. -/
structure iovec where
  iov_len : Nat
  data : List Nat
  nonNull : Bool
deriving DecidableEq, Repr

/-- `struct iov_iter` from core.c.  The C field `iov` is a pointer into the
segment array; it is modelled by the full array `segs` plus the index `idx`
of the pointer from the start of the array. -/
structure iov_iter where
  segs : List iovec
  idx : Nat
  nr_segs : Nat
  iov_offset : Nat
deriving DecidableEq, Repr

/-- Outcome of the general-path while loop of `__iov_iter_advance_iov`:
either its final pointer index and offset, or an out-of-bounds read of
`iov->iov_len` past the end of the segment array. -/
inductive AdvOut where
  | ok (idx : Nat) (base : Nat)
  | oob
deriving DecidableEq, Repr

/-- The while loop `while (bytes || !iov->iov_len) { ... }` of
`__iov_iter_advance_iov` (core.c lines 27-36), with fuel; `none` means the
fuel ran out before the loop finished.  Each iteration reads
`iov->iov_len`: when `idx` is outside the array this is an out-of-bounds
read, and the loop exits normally only when `bytes` is zero and the
current segment length is nonzero. -/
def advLoop (segs : List iovec) : Nat → Nat → Nat → Nat → Option AdvOut
  | 0, _, _, _ => none
  | fuel + 1, bytes, idx, base =>
    match segs[idx]? with
    | none => some AdvOut.oob
    | some s =>
      if bytes = 0 ∧ s.iov_len ≠ 0 then some (AdvOut.ok idx base)
      else
        let avail := (s.iov_len + SIZE_MOD - base) % SIZE_MOD
        let minv := if bytes < avail then bytes else avail
        let c := toSizeT (toIntC minv)
        let bytes2 := (bytes + SIZE_MOD - c) % SIZE_MOD
        let base2 := (base + c) % SIZE_MOD
        if s.iov_len = base2 then advLoop segs fuel bytes2 (idx + 1) 0
        else advLoop segs fuel bytes2 idx base2

/-- Outcome of `__iov_iter_advance_iov`: the updated iterator (the C
function returns `void` and can signal no error), or an out-of-bounds
read inside the general-path loop. -/
inductive AdvResult where
  | ok (i : iov_iter)
  | oob
deriving DecidableEq, Repr

/-- `__iov_iter_advance_iov` (core.c lines 19-39): single-segment fast path
adds `bytes` to the offset with no bounds check; otherwise the general-path
loop runs.  `none` means the loop's fuel ran out. -/
def advance_iov (fuel : Nat) (i : iov_iter) (bytes : Nat) : Option AdvResult :=
  if i.nr_segs = 1 then
    some (AdvResult.ok (iov_iter.mk i.segs i.idx i.nr_segs
      ((i.iov_offset + bytes) % SIZE_MOD)))
  else
    match advLoop i.segs fuel (bytes % SIZE_MOD) i.idx i.iov_offset with
    | none => none
    | some AdvOut.oob => some AdvResult.oob
    | some (AdvOut.ok idx base) =>
      some (AdvResult.ok (iov_iter.mk i.segs idx i.nr_segs base))

/-- `initialize_iov_iter` (core.c lines 42-47). -/
def initialize_iov_iter (iov : List iovec) (nr_segs : Nat) : iov_iter :=
  iov_iter.mk iov 0 nr_segs 0

/-- The running `size_t` sum `total += iov[i].iov_len` of core.c. -/
def sumLens (l : List iovec) : Nat :=
  l.foldl (fun acc s => (acc + s.iov_len) % SIZE_MOD) 0

/-- Advance the iterator once per element of `lens`, as the loop in
`safe_copy_data` does over the source segment lengths. -/
def advanceAll (fuel : Nat) : iov_iter → List Nat → Option AdvResult
  | it, [] => some (AdvResult.ok it)
  | it, n :: ns =>
    match advance_iov fuel it n with
    | none => none
    | some AdvResult.oob => some AdvResult.oob
    | some (AdvResult.ok it2) => advanceAll fuel it2 ns

/-- Outcome of `safe_copy_data`: the returned `int` together with the
destination segment list as the call leaves it, or an out-of-bounds read
inside the iterator advance. -/
inductive CopyOut where
  | ret (r : Int) (dst : List iovec)
  | oob
deriving DecidableEq, Repr

/-- `safe_copy_data` (core.c lines 49-73): sums both lists with wrapping
`size_t` addition, returns -1 when the source total exceeds the destination
total, and otherwise advances an iterator over the source by each source
segment length and returns 0.  It performs no memory writes, so the
destination list is returned exactly as passed in. -/
def safe_copy_data (fuel : Nat) (src dst : List iovec) : Option CopyOut :=
  let total_src := sumLens src
  let total_dst := sumLens dst
  if total_dst < total_src then some (CopyOut.ret (-1) dst)
  else
    match advanceAll fuel (initialize_iov_iter src src.length)
        (src.map iovec.iov_len) with
    | none => none
    | some AdvResult.oob => some CopyOut.oob
    | some (AdvResult.ok _) => some (CopyOut.ret 0 dst)

/-- The bytes `data[j] = 'A' + (j % 26)` written by
`process_iovec_segments` over a region of length `len`. -/
def patternBytes (len : Nat) : List Nat :=
  (List.range len).map (fun j => 65 + j % 26)

/-- `process_iovec_segments` (core.c lines 75-85): overwrites the first
`iov_len` bytes of every segment with nonzero length and non-NULL base. -/
def process_iovec_segments (l : List iovec) : List iovec :=
  l.map (fun s =>
    if 0 < s.iov_len ∧ s.nonNull = true then
      iovec.mk s.iov_len (patternBytes s.iov_len ++ s.data.drop s.iov_len) s.nonNull
    else s)

/-- `validate_iovec_lengths` (core.c lines 87-95): -1 if any segment length
exceeds 1000000, else 0. -/
def validate_iovec_lengths : List iovec → Int
  | [] => 0
  | s :: rest =>
    if 1000000 < s.iov_len then -1 else validate_iovec_lengths rest

/-- Outcome of `perform_io_operation`: the returned `int` together with the
source and destination lists as the call leaves them, or undefined behavior
from an out-of-bounds read in the copy. -/
inductive IoOut where
  | ret (r : Int) (src dst : List iovec)
  | oob
deriving DecidableEq, Repr

/-- `perform_io_operation` (core.c lines 138-146): validates both lists,
then runs `process_iovec_segments` on the SOURCE list, then
`safe_copy_data`. -/
def perform_io_operation (fuel : Nat) (src dst : List iovec) : Option IoOut :=
  if validate_iovec_lengths src ≠ 0 then some (IoOut.ret (-1) src dst)
  else if validate_iovec_lengths dst ≠ 0 then some (IoOut.ret (-1) src dst)
  else
    let src2 := process_iovec_segments src
    match safe_copy_data fuel src2 dst with
    | none => none
    | some CopyOut.oob => some IoOut.oob
    | some (CopyOut.ret r d) => some (IoOut.ret r src2 d)

/-- Logical concatenation of a segment list: the first `iov_len` bytes of
each segment, in order. -/
def concatBytes (l : List iovec) : List Nat :=
  l.foldr (fun s acc => s.data.take s.iov_len ++ acc) []

/-- `TICK_NSEC` from sample.c. -/
def TICK_NSEC : Nat := 1000000

/-- `NSEC_PER_SEC` from sample.c. -/
def NSEC_PER_SEC : Nat := 1000000000

/-- `struct buffer` from sample.c; `data` is the pointer (`none` = NULL). -/
structure buffer where
  data : Option Nat
  size : Nat
  capacity : Nat
deriving DecidableEq, Repr

/-- `cleanup_buffer` (sample.c lines 24-31): frees `data` when non-NULL and
nulls it, then zeroes `size` and `capacity`.  The Bool records whether
`free` was called. -/
def cleanup_buffer (buf : buffer) : buffer × Bool :=
  if buf.data.isSome then (buffer.mk none 0 0, true)
  else (buffer.mk buf.data 0 0, false)

/-- `safe_div_u64_rem` (sample.c lines 56-62): returns the `int` result and,
when it succeeds, the value `(uint32_t)(dividend % divisor)` stored through
the `remainder` pointer (`none` = the pointer was not written). -/
def safe_div_u64_rem (dividend divisor : Nat) : Int × Option Nat :=
  if divisor = 0 then (-1, none)
  else (0, some (dividend % divisor % 2 ^ 32))

/-- `struct timespec` as used by sample.c: two `int64_t` fields. -/
structure timespec where
  tv_sec : Int
  tv_nsec : Int
deriving DecidableEq, Repr

/-- `jiffies_to_timespec` (sample.c lines 64-74): multiplies `jiffies` by
`TICK_NSEC` in `uint64_t`, splits by `NSEC_PER_SEC` via `safe_div_u64_rem`,
and falls back to a zero timespec when the division reports an error. -/
def jiffies_to_timespec (jiffies : Nat) : timespec :=
  let result : Nat := jiffies % SIZE_MOD * TICK_NSEC % SIZE_MOD
  let dr := safe_div_u64_rem result NSEC_PER_SEC
  if dr.1 ≠ 0 then timespec.mk 0 0
  else timespec.mk (Int.ofNat (result / NSEC_PER_SEC)) (Int.ofNat (dr.2.getD 0))

/-- C1: on source = one 1-byte segment holding 42 and destination = one
1-byte segment holding 0 — capacities equal, all lengths within the
validator bound — `safe_copy_data` returns success (0) yet leaves the
destination bytes exactly as passed in, so the first `total_src` logical
destination bytes do not equal the source bytes: the copy copies nothing. -/
theorem safe_copy_data_writes_nothing :
    sumLens [iovec.mk 1 [42] true] ≤ sumLens [iovec.mk 1 [0] true]
    ∧ validate_iovec_lengths [iovec.mk 1 [42] true] = 0
    ∧ validate_iovec_lengths [iovec.mk 1 [0] true] = 0
    ∧ safe_copy_data 5 [iovec.mk 1 [42] true] [iovec.mk 1 [0] true]
        = some (CopyOut.ret 0 [iovec.mk 1 [0] true])
    ∧ (concatBytes [iovec.mk 1 [0] true]).take (sumLens [iovec.mk 1 [42] true])
        ≠ concatBytes [iovec.mk 1 [42] true] := by
  decide

/-- C2: on the two-segment list [length 5, length 0], advancing by the full
remaining count 5 makes the general-path loop step past the trailing
zero-length segment and read `iov->iov_len` one past the end of the array
(undefined behavior in C; over zeroed memory the loop never exits), instead
of terminating cleanly. -/
theorem advance_trailing_zero_oob :
    advance_iov 10 (iov_iter.mk [iovec.mk 5 [] true, iovec.mk 0 [] true] 0 2 0) 5
      = some AdvResult.oob := by
  decide

/-- C3: on a single-segment list of length 10, advancing by 150 (which
exceeds the 10 remaining bytes) does not fail: the fast path performs no
bounds check, the C function returns void, and the iterator is left with
offset 150. -/
theorem advance_overrun_unchecked :
    advance_iov 5 (iov_iter.mk [iovec.mk 10 [] true] 0 1 0) 150
      = some (AdvResult.ok (iov_iter.mk [iovec.mk 10 [] true] 0 1 150)) := by
  decide

/-- C4: the single-segment fast path breaks the iterator invariant: on a
single segment of length 10, advance(11) yields a non-exhausted iterator
whose `iov_offset` (11) exceeds the current segment's length (10). -/
theorem advance_fastpath_invariant_broken :
    advance_iov 5 (iov_iter.mk [iovec.mk 10 [] true] 0 1 0) 11
      = some (AdvResult.ok (iov_iter.mk [iovec.mk 10 [] true] 0 1 11))
    ∧ ¬ (iov_iter.mk [iovec.mk 10 [] true] 0 1 11).iov_offset
        ≤ (iovec.mk 10 [] true).iov_len := by
  decide

/-- C5: `perform_io_operation` mutates SOURCE memory: with a source of one
1-byte segment holding 0, the call returns success but the source byte has
been overwritten with 65 (the pattern written by `process_iovec_segments`),
while the destination is untouched. -/
theorem perform_io_mutates_source :
    perform_io_operation 5 [iovec.mk 1 [0] true] [iovec.mk 1 [7] true]
      = some (IoOut.ret 0 [iovec.mk 1 [65] true] [iovec.mk 1 [7] true])
    ∧ [iovec.mk 1 [65] true] ≠ [iovec.mk 1 [0] true] := by
  decide

/-- C6: the total-length sum wraps silently: for source segment lengths
2^63 and 2^63 + 1 the true sum is 2^64 + 1, beyond the size_t range, but
the code computes the wrapped value 1 and proceeds to the capacity
comparison, returning the capacity failure -1 against an empty destination;
no overflow error is ever signalled. -/
theorem total_src_sum_wraps :
    sumLens [iovec.mk (2 ^ 63) [] true, iovec.mk (2 ^ 63 + 1) [] true] = 1
    ∧ (([iovec.mk (2 ^ 63) [] true, iovec.mk (2 ^ 63 + 1) [] true]).map
        iovec.iov_len).sum = 2 ^ 64 + 1
    ∧ safe_copy_data 5 [iovec.mk (2 ^ 63) [] true, iovec.mk (2 ^ 63 + 1) [] true] []
        = some (CopyOut.ret (-1) []) := by
  decide

/-- C7: whenever the destination total (as the code computes it) is
strictly below the source total, `safe_copy_data` returns -1 — the
InsufficientCapacity failure — immediately, and the destination segment
list is returned exactly as passed in: zero bytes are written. -/
theorem safe_copy_insufficient_capacity (fuel : Nat) (src dst : List iovec)
    (h : sumLens dst < sumLens src) :
    safe_copy_data fuel src dst = some (CopyOut.ret (-1) dst) := by
  unfold safe_copy_data
  simp [h]

/-- Witness for C7: a 2-byte source and 1-byte destination. -/
theorem safe_copy_insufficient_capacity_witness :
    sumLens [iovec.mk 1 [0] true] < sumLens [iovec.mk 2 [0, 0] true]
    ∧ safe_copy_data 5 [iovec.mk 2 [0, 0] true] [iovec.mk 1 [0] true]
        = some (CopyOut.ret (-1) [iovec.mk 1 [0] true]) :=
  ⟨by decide, safe_copy_insufficient_capacity 5 [iovec.mk 2 [0, 0] true]
    [iovec.mk 1 [0] true] (by decide)⟩

/-- C8: `validate_iovec_lengths` fails (-1) exactly when some segment's
length exceeds the 1,000,000-byte maximum, and succeeds (0) exactly when
every segment's length is at most the maximum — in particular on the empty
list. -/
theorem validate_iovec_lengths_spec (l : List iovec) :
    (validate_iovec_lengths l = -1 ↔ ∃ s ∈ l, 1000000 < s.iov_len)
    ∧ (validate_iovec_lengths l = 0 ↔ ∀ s ∈ l, s.iov_len ≤ 1000000) := by
  induction l with
  | nil => refine ⟨?_, ?_⟩ <;> simp [validate_iovec_lengths]
  | cons s rest ih =>
    by_cases h : 1000000 < s.iov_len
    · refine ⟨?_, ?_⟩ <;>
        simp [validate_iovec_lengths, h, Nat.not_le.mpr h]
    · refine ⟨?_, ?_⟩ <;>
        simp [validate_iovec_lengths, h, Nat.not_lt.mp h, ih.1, ih.2]

/-- Computation lemma: `jiffies_to_timespec` always takes the success
branch, since its divisor is the nonzero constant `NSEC_PER_SEC`. -/
theorem jiffies_to_timespec_eq (j : Nat) :
    jiffies_to_timespec j
      = timespec.mk (Int.ofNat (j % SIZE_MOD * TICK_NSEC % SIZE_MOD / NSEC_PER_SEC))
          (Int.ofNat (j % SIZE_MOD * TICK_NSEC % SIZE_MOD % NSEC_PER_SEC % 2 ^ 32)) :=
  rfl

/-- C9: for every jiffies value, the division inside `jiffies_to_timespec`
uses the nonzero constant NSEC_PER_SEC, so `safe_div_u64_rem` never takes
its zero-divisor branch, and the resulting `tv_nsec` lies in
[0, 1,000,000,000). -/
theorem jiffies_to_timespec_safe (j : Nat) :
    (safe_div_u64_rem (j % SIZE_MOD * TICK_NSEC % SIZE_MOD) NSEC_PER_SEC).1 = 0
    ∧ 0 ≤ (jiffies_to_timespec j).tv_nsec
    ∧ (jiffies_to_timespec j).tv_nsec < 1000000000 := by
  have hd : NSEC_PER_SEC ≠ 0 := by decide
  have h1 : j % SIZE_MOD * TICK_NSEC % SIZE_MOD % NSEC_PER_SEC < NSEC_PER_SEC :=
    Nat.mod_lt _ (Nat.pos_of_ne_zero hd)
  have h2 : j % SIZE_MOD * TICK_NSEC % SIZE_MOD % NSEC_PER_SEC % 2 ^ 32
      ≤ j % SIZE_MOD * TICK_NSEC % SIZE_MOD % NSEC_PER_SEC :=
    Nat.mod_le _ _
  have hlt : j % SIZE_MOD * TICK_NSEC % SIZE_MOD % NSEC_PER_SEC % 2 ^ 32
      < 1000000000 := lt_of_le_of_lt h2 h1
  have hfst : safe_div_u64_rem (j % SIZE_MOD * TICK_NSEC % SIZE_MOD) NSEC_PER_SEC
      = (0, some (j % SIZE_MOD * TICK_NSEC % SIZE_MOD % NSEC_PER_SEC % 2 ^ 32)) := by
    unfold safe_div_u64_rem
    rw [if_neg hd]
  refine ⟨?_, ?_, ?_⟩
  · rw [hfst]
  · rw [jiffies_to_timespec_eq j]
    show (0 : Int) ≤ Int.ofNat (j % SIZE_MOD * TICK_NSEC % SIZE_MOD % NSEC_PER_SEC % 2 ^ 32)
    exact Int.natCast_nonneg _
  · rw [jiffies_to_timespec_eq j]
    show Int.ofNat (j % SIZE_MOD * TICK_NSEC % SIZE_MOD % NSEC_PER_SEC % 2 ^ 32)
      < Int.ofNat 1000000000
    exact Int.ofNat_lt.mpr hlt

/-- C10: `cleanup_buffer` is idempotent: the state after one call is the
fixed point (data = NULL, size = 0, capacity = 0), and a second call
returns the same state while performing no deallocation (`free` flag is
false). -/
theorem cleanup_buffer_idempotent (b : buffer) :
    cleanup_buffer (cleanup_buffer b).1 = ((cleanup_buffer b).1, false) := by
  cases b with
  | mk d s c => cases d <;> simp [cleanup_buffer]
